import Mathlib

/-!
Shallow embedding of the GInetFlow library (src/ginetflow.c): the packet
tuple parser (flow_parse, flow_parse_ipv4, flow_parse_tcp), the flow hash
(crc16, flow_hash), tuple comparison (flow_compare) and the flow table
(g_inet_flow_get_full, g_inet_flow_foreach, table property accessors).

Modelling conventions:
* Raw memory is a total function `Nat → Nat`; a byte fetch reduces the
  stored value mod 256.  The frame pointer is address 0 of that memory,
  so bytes at indices `≥ length` model memory beyond the supplied frame
  (the C code can and does read there, see flow_parse).
* `guint32` lengths are Nats together with explicit mod-2^32 arithmetic
  where the C code can wrap (`length - sizeof(ethernet_hdr_t)`).
* 32-bit IP address words are modelled by their big-endian (network
  order) numeric value, i.e. the semantics of a big-endian host; the
  source compares addresses through GUINT32 byte-swapping, which on such
  a host is the identity.
* GLib heap objects get an explicit `id` (creation index) standing for
  pointer identity; `GHashTable` with `flow_hash`/`flow_compare` is
  modelled as a list of records where a lookup finds a record whose
  stored hash equals the lookup key's hash and whose tuple compares
  equal (GLib compares stored hash values before calling the equality
  function); `g_list_remove`/`g_list_prepend` act on the recency list
  of ids.
-/

namespace GInetFlow

def U32 : Nat := 4294967296

/-- Fetch one byte of memory. -/
def byteAt (mem : Nat → Nat) (i : Nat) : Nat := mem i % 256

/-- GUINT16_FROM_BE of the two bytes at offset `i`. -/
def be16 (mem : Nat → Nat) (i : Nat) : Nat := byteAt mem i * 256 + byteAt mem (i + 1)

/-- Big-endian numeric value of the four bytes at offset `i` (a guint32 field
interpreted through GUINT32 byte order conversion). -/
def be32 (mem : Nat → Nat) (i : Nat) : Nat :=
  ((byteAt mem i * 256 + byteAt mem (i + 1)) * 256 + byteAt mem (i + 2)) * 256
    + byteAt mem (i + 3)

/-- guint32 subtraction `a - b` (for `b ≤ 2^32`), wrapping like C unsigned
arithmetic does when `a < b`. -/
def sub32 (a b : Nat) : Nat := (a + (U32 - b)) % U32

/-- One inner-loop step of `crc16`: shift the register left, conditionally
xor the polynomial 0x1021 depending on the top register bit xor the data
bit, and truncate to 16 bits. -/
def crc16Bit (iv b : Nat) : Nat :=
  ((iv <<< 1) ^^^ (if (((iv >>> 15) &&& 1) ^^^ b) ≠ 0 then 0x1021 else 0)) &&& 0xffff

/-- The inner `for (j=7; j>=0; j--)` loop of `crc16`, consuming the bits of
byte `b` from bit `j-1` down to bit 0. -/
def crc16Bits : Nat → Nat → Nat → Nat
  | 0, iv, _ => iv
  | j + 1, iv, b => crc16Bits j (crc16Bit iv ((b >>> j) &&& 1)) b

/-- Process one byte (8 bit steps, most significant bit first). -/
def crc16Byte (iv b : Nat) : Nat := crc16Bits 8 iv b

/-- The outer `for (i=7; i>=0; i--)` loop of `crc16`, consuming the bytes of
the 64-bit word `p` from byte `i-1` down to byte 0. -/
def crc16Words : Nat → Nat → Nat → Nat
  | 0, iv, _ => iv
  | i + 1, iv, p => crc16Words i (crc16Byte iv ((p >>> (i * 8)) &&& 0xff)) p

/-- `crc16` from the source: fold the 8 bytes of the 64-bit word `p`
(most significant first) into the register `iv`. -/
def crc16 (iv p : Nat) : Nat := crc16Words 8 iv p

/-- The canonical flow tuple (`struct _GInetFlow.tuple`).  The four-word
arrays `lower_ip`/`upper_ip` are spelled out as four fields each. -/
structure FlowTuple where
  protocol : Nat
  lower_port : Nat
  upper_port : Nat
  lower_ip0 : Nat
  lower_ip1 : Nat
  lower_ip2 : Nat
  lower_ip3 : Nat
  upper_ip0 : Nat
  upper_ip1 : Nat
  upper_ip2 : Nat
  upper_ip3 : Nat
deriving DecidableEq, Repr

/-- The hash computation in `flow_hash` for a flow whose cached hash is 0:
three crc16 chains over the lower side, the upper side and the protocol,
combined with xor. -/
def flow_hash_compute (t : FlowTuple) : Nat :=
  let src1 := crc16 0xffff ((t.lower_ip0 <<< 32) ||| t.lower_ip1)
  let src2 := crc16 src1 ((t.lower_ip2 <<< 32) ||| t.lower_ip3)
  let src3 := crc16 src2 (t.lower_port <<< 48)
  let dst1 := crc16 0xffff ((t.upper_ip0 <<< 32) ||| t.upper_ip1)
  let dst2 := crc16 dst1 ((t.upper_ip2 <<< 32) ||| t.upper_ip3)
  let dst3 := crc16 dst2 (t.upper_port <<< 48)
  let prot := crc16 0xffff (t.protocol <<< 56)
  src3 ^^^ dst3 ^^^ prot

/-- `flow_hash`: return the cached hash when non-zero, otherwise compute it
from the tuple (the computed value is also what ends up cached). -/
def flow_hash (cached : Nat) (t : FlowTuple) : Nat :=
  if cached ≠ 0 then cached else flow_hash_compute t

/-- `flow_compare`: field-by-field comparison of the two tuples (protocol,
ports, then memcmp of the two 16-byte address arrays). -/
def flow_compare (t1 t2 : FlowTuple) : Bool :=
  if t1.protocol ≠ t2.protocol then false
  else if t1.lower_port ≠ t2.lower_port then false
  else if t1.upper_port ≠ t2.upper_port then false
  else if ¬ (t1.upper_ip0 = t2.upper_ip0 ∧ t1.upper_ip1 = t2.upper_ip1 ∧
             t1.upper_ip2 = t2.upper_ip2 ∧ t1.upper_ip3 = t2.upper_ip3) then false
  else if ¬ (t1.lower_ip0 = t2.lower_ip0 ∧ t1.lower_ip1 = t2.lower_ip1 ∧
             t1.lower_ip2 = t2.lower_ip2 ∧ t1.lower_ip3 = t2.lower_ip3) then false
  else true

/-- `flow_parse_tcp`: needs a full `sizeof(tcp_hdr_t)` = 20 bytes, reads the
source and destination ports (big-endian) and returns them canonically
ordered as (lower_port, upper_port). -/
def flow_parse_tcp (mem : Nat → Nat) (off len : Nat) : Option (Nat × Nat) :=
  if len < 20 then none
  else
    let sport := be16 mem off
    let dport := be16 mem (off + 2)
    if sport < dport then some (sport, dport) else some (dport, sport)

/-- `flow_parse_ipv4`: needs a 20 byte fixed IPv4 header, canonically orders
the source/destination addresses into lower/upper (words 1..3 stay at their
zero initialisation from `GInetFlow packet = {}`), keeps the protocol and
dispatches: only TCP (6) continues, UDP/ICMP/anything else is rejected. -/
def flow_parse_ipv4 (mem : Nat → Nat) (off len : Nat) : Option FlowTuple :=
  if len < 20 then none
  else
    let sip := be32 mem (off + 12)
    let dip := be32 mem (off + 16)
    let lip := if sip < dip then sip else dip
    let uip := if sip < dip then dip else sip
    let proto := byteAt mem (off + 9)
    if proto = 6 then
      match flow_parse_tcp mem (off + 20) (len - 20) with
      | none => none
      | some (lp, up) => some ⟨proto, lp, up, lip, 0, 0, 0, uip, 0, 0, 0⟩
    else none

def G_SOCKET_FAMILY_IPV4 : Nat := 2

/-- `flow_parse`: reads the ethertype at bytes 12-13 (with no check that the
frame is at least 14 bytes long, exactly as the source does), accepts only
0x0800 (IPv4), records the family and the externally supplied hash, and
hands the IPv4 layer `length - 14` computed in guint32 arithmetic (which
wraps when `length < 14`).  Returns (family, hash-field, tuple). -/
def flow_parse (mem : Nat → Nat) (len hash : Nat) : Option (Nat × Nat × FlowTuple) :=
  if be16 mem 12 = 0x0800 then
    match flow_parse_ipv4 mem 14 (sub32 len 14) with
    | none => none
    | some t => some (G_SOCKET_FAMILY_IPV4, hash, t)
  else none

/-- A heap-allocated `GInetFlow` record; `id` models pointer identity
(records are numbered in creation order). -/
structure FlowRec where
  id : Nat
  family : Nat
  hash : Nat
  tuple : FlowTuple
  timestamp : Nat
deriving DecidableEq, Repr

/-- The `GInetFlowTable`: hash table contents (`recs`), the recency `list`
of record ids (head = most recently touched), and the hit/miss counters.
`nextId` is the allocator for record identities. -/
structure FlowTable where
  recs : List FlowRec
  list : List Nat
  hits : Nat
  misses : Nat
  nextId : Nat
deriving DecidableEq, Repr

/-- A freshly created table (g_inet_flow_table_new). -/
def emptyTable : FlowTable := ⟨[], [], 0, 0, 0⟩

/-- GLib reserves the node-hash values 0 (unused) and 1 (tombstone) inside
`GHashTable`; a hash-function result that is not "real" is folded to 2
before it is stored in a node or used by a probe (ghash.c:
`if (!HASH_IS_REAL (hash_value)) hash_value = 2;`). -/
def ghashFold (h : Nat) : Nat := if h < 2 then 2 else h

/-- The criterion by which `g_hash_table_lookup` finds a stored record for a
lookup key with effective hash `h` and tuple `t`: the folded stored hash
value must equal the folded lookup hash and `flow_compare` must succeed. -/
def flowMatch (h : Nat) (t : FlowTuple) (r : FlowRec) : Bool :=
  ghashFold r.hash == ghashFold h && flow_compare r.tuple t

/-- `g_inet_flow_get_full`: parse the frame (returning `(none, table)`
untouched on failure), look the tuple up, and either touch the existing
record (move to the head of the recency list, bump `hits`, refresh the
timestamp) or create a new record (prepend everywhere, bump `misses`).
`now` stands for `get_time_us()`, used when `timestamp` is 0. -/
def g_inet_flow_get_full (tbl : FlowTable) (mem : Nat → Nat)
    (len hash timestamp now : Nat) : Option Nat × FlowTable :=
  match flow_parse mem len hash with
  | none => (none, tbl)
  | some (fam, h0, t) =>
    let h := flow_hash h0 t
    let ts := if timestamp = 0 then now else timestamp
    match tbl.recs.find? (flowMatch h t) with
    | some r =>
      (some r.id,
        { tbl with
          recs := tbl.recs.map (fun x => if x.id = r.id then { x with timestamp := ts } else x),
          list := r.id :: tbl.list.erase r.id,
          hits := tbl.hits + 1 })
    | none =>
      (some tbl.nextId,
        { tbl with
          recs := ⟨tbl.nextId, fam, h, t, ts⟩ :: tbl.recs,
          list := tbl.nextId :: tbl.list,
          misses := tbl.misses + 1,
          nextId := tbl.nextId + 1 })

/-- `g_inet_flow_get`: the default entry point, hash = 0 and timestamp = 0. -/
def g_inet_flow_get (tbl : FlowTable) (mem : Nat → Nat) (len now : Nat) :
    Option Nat × FlowTable :=
  g_inet_flow_get_full tbl mem len 0 0 now

/-- `g_inet_flow_foreach` visits `table->list` in order: the traversal is the
recency list itself. -/
def g_inet_flow_foreach (tbl : FlowTable) : List Nat := tbl.list

/-- The table "size" property: `g_hash_table_size`. -/
def tableSize (tbl : FlowTable) : Nat := tbl.recs.length

/-- Dotted-quad rendering of an IPv4 address given by its big-endian numeric
value (`g_inet_address_to_string` for a 4-byte address). -/
def ipv4Dotted (n : Nat) : String :=
  toString ((n >>> 24) &&& 255) ++ "." ++ toString ((n >>> 16) &&& 255) ++ "." ++
  toString ((n >>> 8) &&& 255) ++ "." ++ toString (n &&& 255)

/-- Property `FLOW_LIP` ("lip") of `g_inet_flow_get_property`: the string of
the address bytes passed to `g_inet_address_new_from_bytes`, which are
`flow->tuple.lower_ip`. -/
def flow_property_lip (f : FlowRec) : String := ipv4Dotted f.tuple.lower_ip0

/-- Property `FLOW_UIP` ("uip") of `g_inet_flow_get_property`: the source
also passes `flow->tuple.lower_ip` (line 293), not `upper_ip`. -/
def flow_property_uip (f : FlowRec) : String := ipv4Dotted f.tuple.lower_ip0

/-! Auxiliary definitions used by the statements of the verified properties:
concrete frames, the direction-swapping transformation on a frame, iterated
calls, and the byte-stream view of the CRC computation. -/

/-- A concrete memory whose first bytes are the given list (0 beyond it). -/
def frameOf (bs : List Nat) : Nat → Nat := fun i => bs.getD i 0

/-- A valid 54-byte Ethernet/IPv4/TCP frame: 10.0.0.1:443 → 10.0.0.2:51000
(bytes 38..53 are zero padding, never read by the parser). -/
def frameA : Nat → Nat := frameOf
  [0, 0, 0, 0, 0, 0, 0, 0, 0, 0, 0, 0, 8, 0,
   69, 0, 0, 40, 0, 0, 0, 0, 64, 6, 0, 0, 10, 0, 0, 1, 10, 0, 0, 2,
   1, 187, 199, 56]

/-- The reverse-direction counterpart of `frameA`:
10.0.0.2:51000 → 10.0.0.1:443. -/
def frameArev : Nat → Nat := frameOf
  [0, 0, 0, 0, 0, 0, 0, 0, 0, 0, 0, 0, 8, 0,
   69, 0, 0, 40, 0, 0, 0, 0, 64, 6, 0, 0, 10, 0, 0, 2, 10, 0, 0, 1,
   199, 56, 1, 187]

/-- Like `frameA` but with destination address 10.0.0.3 (a distinct flow). -/
def frameB : Nat → Nat := frameOf
  [0, 0, 0, 0, 0, 0, 0, 0, 0, 0, 0, 0, 8, 0,
   69, 0, 0, 40, 0, 0, 0, 0, 64, 6, 0, 0, 10, 0, 0, 1, 10, 0, 0, 3,
   1, 187, 199, 56]

/-- Like `frameA` but with destination address 10.0.0.4 (a distinct flow). -/
def frameC : Nat → Nat := frameOf
  [0, 0, 0, 0, 0, 0, 0, 0, 0, 0, 0, 0, 8, 0,
   69, 0, 0, 40, 0, 0, 0, 0, 64, 6, 0, 0, 10, 0, 0, 1, 10, 0, 0, 4,
   1, 187, 199, 56]

/-- An Ethernet frame carrying the IPv6 ethertype 0x86DD. -/
def frameV6 : Nat → Nat := frameOf
  [0, 0, 0, 0, 0, 0, 0, 0, 0, 0, 0, 0, 134, 221,
   96, 0, 0, 0, 0, 0, 0, 0, 0, 6, 0, 0, 10, 0, 0, 1, 10, 0, 0, 2,
   1, 187, 199, 56]

/-- A memory that agrees with `frameA` on every byte below index 13 and is
zero from index 13 on. -/
def frameShort : Nat → Nat := frameOf [0, 0, 0, 0, 0, 0, 0, 0, 0, 0, 0, 0, 8]

/-- The canonical tuple of `frameA` (and of `frameArev`). -/
def tupleA : FlowTuple := ⟨6, 443, 51000, 167772161, 0, 0, 0, 167772162, 0, 0, 0⟩

/-- The canonical tuple of `frameB`. -/
def tupleB : FlowTuple := ⟨6, 443, 51000, 167772161, 0, 0, 0, 167772163, 0, 0, 0⟩

/-- The canonical tuple of `frameC`. -/
def tupleC : FlowTuple := ⟨6, 443, 51000, 167772161, 0, 0, 0, 167772164, 0, 0, 0⟩

/-- The table after observing `frameA` once (default hash and timestamp,
wall clock 7). -/
def tableA : FlowTable := (g_inet_flow_get_full emptyTable frameA 54 0 0 7).2

/-- The record created for `frameA` in `tableA` (its computed CRC hash is
10031). -/
def recA : FlowRec := ⟨0, 2, 10031, tupleA, 7⟩

/-- Swap the two IPv4 addresses (bytes 26..29 and 30..33) and the two TCP
ports (bytes 34..35 and 36..37) of a frame: the reverse-direction
counterpart of the same conversation. -/
def swapMem (mem : Nat → Nat) : Nat → Nat := fun i =>
  if 26 ≤ i ∧ i ≤ 29 then mem (i + 4)
  else if 30 ≤ i ∧ i ≤ 33 then mem (i - 4)
  else if 34 ≤ i ∧ i ≤ 35 then mem (i + 2)
  else if 36 ≤ i ∧ i ≤ 37 then mem (i - 2)
  else mem i

/-- A frame together with the tuple it parses to (bookkeeping for stating
properties about sequences of observations). -/
structure KeyedFrame where
  mem : Nat → Nat
  len : Nat
  tuple : FlowTuple

/-- Feed a sequence of frames to the table through `g_inet_flow_get`
(external hash 0, timestamp 0, wall clock `now`). -/
def runFlows (tbl : FlowTable) (ps : List KeyedFrame) (now : Nat) : FlowTable :=
  ps.foldl (fun t p => (g_inet_flow_get_full t p.mem p.len 0 0 now).2) tbl

/-- One arbitrary `g_inet_flow_get_full` call. -/
structure Call where
  mem : Nat → Nat
  len : Nat
  hash : Nat
  timestamp : Nat
  now : Nat

/-- Feed a sequence of arbitrary calls to the table. -/
def runCalls (tbl : FlowTable) (cs : List Call) : FlowTable :=
  cs.foldl (fun t c => (g_inet_flow_get_full t c.mem c.len c.hash c.timestamp c.now).2) tbl

/-- The 8 bytes of a 64-bit word, most significant first: the order in which
`crc16` consumes them. -/
def wordBytes (p : Nat) : List Nat :=
  [(p >>> 56) &&& 255, (p >>> 48) &&& 255, (p >>> 40) &&& 255, (p >>> 32) &&& 255,
   (p >>> 24) &&& 255, (p >>> 16) &&& 255, (p >>> 8) &&& 255, p &&& 255]

/-- CRC-16 (polynomial 0x1021) over an arbitrary byte stream, starting from
register `iv`: the spec-level description of one of the three computations
combined by the flow hash. -/
def crc16Stream (iv : Nat) (bs : List Nat) : Nat := bs.foldl crc16Byte iv

/-- The 4 bytes of a 32-bit word, most significant first. -/
def bytes4 (w : Nat) : List Nat :=
  [(w >>> 24) &&& 255, (w >>> 16) &&& 255, (w >>> 8) &&& 255, w &&& 255]

/-- The byte stream hashed by the lower-side CRC: the 128-bit lower address
(16 bytes) followed by the 2 bytes of the lower port and the 6 bytes of
zero padding the code's last 64-bit word carries after the port. -/
def lowerStream (t : FlowTuple) : List Nat :=
  bytes4 t.lower_ip0 ++ bytes4 t.lower_ip1 ++ bytes4 t.lower_ip2 ++ bytes4 t.lower_ip3 ++
  [(t.lower_port >>> 8) &&& 255, t.lower_port &&& 255, 0, 0, 0, 0, 0, 0]

/-- The byte stream hashed by the upper-side CRC. -/
def upperStream (t : FlowTuple) : List Nat :=
  bytes4 t.upper_ip0 ++ bytes4 t.upper_ip1 ++ bytes4 t.upper_ip2 ++ bytes4 t.upper_ip3 ++
  [(t.upper_port >>> 8) &&& 255, t.upper_port &&& 255, 0, 0, 0, 0, 0, 0]

/-- The byte stream hashed by the protocol CRC: the protocol byte followed
by 7 bytes of zero padding. -/
def protoStream (t : FlowTuple) : List Nat :=
  [t.protocol &&& 255, 0, 0, 0, 0, 0, 0, 0]

/-- The fields of a stored record that a `g_hash_table_lookup` probe
inspects: the stored hash value and the tuple. -/
def recKey (r : FlowRec) : Nat × FlowTuple := (r.hash, r.tuple)

/-! General lemmas about the embedded definitions. -/

theorem flow_compare_iff (t1 t2 : FlowTuple) : flow_compare t1 t2 = true ↔ t1 = t2 := by
  cases t1; cases t2
  unfold flow_compare
  split_ifs <;> simp_all [FlowTuple.mk.injEq]

theorem flow_compare_refl (t : FlowTuple) : flow_compare t t = true :=
  (flow_compare_iff t t).mpr rfl

theorem flowMatch_iff (h : Nat) (t : FlowTuple) (r : FlowRec) :
    flowMatch h t r = true ↔ ghashFold r.hash = ghashFold h ∧ r.tuple = t := by
  simp [flowMatch, flow_compare_iff]

theorem flow_hash_zero (t : FlowTuple) : flow_hash 0 t = flow_hash_compute t := by
  simp [flow_hash]

theorem flow_parse_tcp_swap (mem : Nat → Nat) (len : Nat) :
    flow_parse_tcp (swapMem mem) 34 len = flow_parse_tcp mem 34 len := by
  have e1 : be16 (swapMem mem) 34 = be16 mem 36 := by simp [be16, byteAt, swapMem]
  have e2 : be16 (swapMem mem) 36 = be16 mem 34 := by simp [be16, byteAt, swapMem]
  unfold flow_parse_tcp
  norm_num [e1, e2]
  split_ifs <;> simp_all <;> omega

theorem flow_parse_ipv4_swap (mem : Nat → Nat) (len : Nat) :
    flow_parse_ipv4 (swapMem mem) 14 len = flow_parse_ipv4 mem 14 len := by
  have e2 : byteAt (swapMem mem) 23 = byteAt mem 23 := by simp [byteAt, swapMem]
  have e3 : be32 (swapMem mem) 26 = be32 mem 30 := by simp [be32, byteAt, swapMem]
  have e4 : be32 (swapMem mem) 30 = be32 mem 26 := by simp [be32, byteAt, swapMem]
  have hlip : (if be32 mem 30 < be32 mem 26 then be32 mem 30 else be32 mem 26)
      = (if be32 mem 26 < be32 mem 30 then be32 mem 26 else be32 mem 30) := by
    split_ifs <;> omega
  have huip : (if be32 mem 30 < be32 mem 26 then be32 mem 26 else be32 mem 30)
      = (if be32 mem 26 < be32 mem 30 then be32 mem 30 else be32 mem 26) := by
    split_ifs <;> omega
  unfold flow_parse_ipv4
  norm_num [e2, e3, e4, flow_parse_tcp_swap, hlip, huip]

theorem flow_parse_swap (mem : Nat → Nat) (len hash : Nat) :
    flow_parse (swapMem mem) len hash = flow_parse mem len hash := by
  have e1 : be16 (swapMem mem) 12 = be16 mem 12 := by simp [be16, byteAt, swapMem]
  unfold flow_parse
  rw [e1, flow_parse_ipv4_swap]

theorem flow_parse_ipv4_isSome_tcp (mem : Nat → Nat) (off len : Nat)
    (h20 : ¬ (len < 20)) (hp : byteAt mem (off + 9) = 6) :
    (flow_parse_ipv4 mem off len).isSome = (flow_parse_tcp mem (off + 20) (len - 20)).isSome := by
  unfold flow_parse_ipv4
  rw [if_neg h20]
  simp only [hp]
  rw [if_true]
  cases htcp : flow_parse_tcp mem (off + 20) (len - 20) with
  | none => rfl
  | some v =>
      obtain ⟨lp, up⟩ := v
      rfl

theorem flow_parse_ipv4_none_of_lt (mem : Nat → Nat) (off len : Nat) (h20 : len < 20) :
    flow_parse_ipv4 mem off len = none := by
  unfold flow_parse_ipv4
  rw [if_pos h20]

theorem flow_parse_tcp_none_of_lt (mem : Nat → Nat) (off len : Nat) (h20 : len < 20) :
    flow_parse_tcp mem off len = none := by
  unfold flow_parse_tcp
  rw [if_pos h20]

theorem flow_parse_tcp_isSome (mem : Nat → Nat) (off len : Nat) (h20 : ¬ (len < 20)) :
    (flow_parse_tcp mem off len).isSome = true := by
  unfold flow_parse_tcp
  rw [if_neg h20]
  show (if be16 mem off < be16 mem (off + 2)
    then some (be16 mem off, be16 mem (off + 2))
    else some (be16 mem (off + 2), be16 mem off)).isSome = true
  split <;> rfl

theorem flowMatch_update (h : Nat) (t : FlowTuple) (ts : Nat) (rid : Nat) (x : FlowRec) :
    flowMatch h t (if x.id = rid then { x with timestamp := ts } else x) = flowMatch h t x := by
  split <;> rfl

theorem get_full_find_self (tbl : FlowTable) (mem : Nat → Nat)
    (len hash ts now fam h0 : Nat) (t : FlowTuple)
    (hp : flow_parse mem len hash = some (fam, h0, t)) :
    ∃ id r, (g_inet_flow_get_full tbl mem len hash ts now).1 = some id ∧
      ((g_inet_flow_get_full tbl mem len hash ts now).2).recs.find?
        (flowMatch (flow_hash h0 t) t) = some r ∧ r.id = id := by
  simp only [g_inet_flow_get_full, hp]
  cases hfind : tbl.recs.find? (flowMatch (flow_hash h0 t) t) with
  | some r =>
      refine ⟨r.id, { r with timestamp := if ts = 0 then now else ts }, rfl, ?_, rfl⟩
      rw [List.find?_map]
      have hcomp : (flowMatch (flow_hash h0 t) t ∘ fun x =>
          if x.id = r.id then { x with timestamp := if ts = 0 then now else ts } else x)
          = flowMatch (flow_hash h0 t) t := by
        funext x
        exact flowMatch_update _ _ _ _ _
      rw [hcomp, hfind]
      simp
  | none =>
      refine ⟨tbl.nextId, ⟨tbl.nextId, fam, flow_hash h0 t, t, if ts = 0 then now else ts⟩,
        rfl, ?_, rfl⟩
      apply List.find?_cons_of_pos
      simp [flowMatch, flow_compare_refl]

theorem get_full_miss (tbl : FlowTable) (mem : Nat → Nat) (len hash ts now fam h0 : Nat)
    (t : FlowTuple) (hp : flow_parse mem len hash = some (fam, h0, t))
    (habs : ∀ r ∈ tbl.recs, r.tuple ≠ t) :
    (g_inet_flow_get_full tbl mem len hash ts now).2 =
      { recs := ⟨tbl.nextId, fam, flow_hash h0 t, t, if ts = 0 then now else ts⟩ :: tbl.recs,
        list := tbl.nextId :: tbl.list,
        hits := tbl.hits, misses := tbl.misses + 1, nextId := tbl.nextId + 1 } ∧
    (g_inet_flow_get_full tbl mem len hash ts now).1 = some tbl.nextId := by
  have hfind : tbl.recs.find? (flowMatch (flow_hash h0 t) t) = none := by
    rw [List.find?_eq_none]
    intro x hx hm
    exact habs x hx ((flowMatch_iff _ _ _).mp hm).2
  constructor <;> simp only [g_inet_flow_get_full, hp, hfind]

theorem get_full_hit (tbl : FlowTable) (mem : Nat → Nat) (len hash ts now fam h0 : Nat)
    (t : FlowTuple) (r : FlowRec) (hp : flow_parse mem len hash = some (fam, h0, t))
    (hfind : tbl.recs.find? (flowMatch (flow_hash h0 t) t) = some r) :
    (g_inet_flow_get_full tbl mem len hash ts now).2.hits = tbl.hits + 1 ∧
    (g_inet_flow_get_full tbl mem len hash ts now).2.misses = tbl.misses ∧
    (g_inet_flow_get_full tbl mem len hash ts now).2.nextId = tbl.nextId ∧
    (g_inet_flow_get_full tbl mem len hash ts now).2.recs.map recKey = tbl.recs.map recKey ∧
    (g_inet_flow_get_full tbl mem len hash ts now).2.list = r.id :: tbl.list.erase r.id ∧
    (g_inet_flow_get_full tbl mem len hash ts now).1 = some r.id := by
  have hcomp : (recKey ∘ fun x =>
      if x.id = r.id then { x with timestamp := if ts = 0 then now else ts } else x)
      = recKey := by
    funext x
    simp only [Function.comp_apply]
    split <;> rfl
  refine ⟨?_, ?_, ?_, ?_, ?_, ?_⟩ <;>
    simp only [g_inet_flow_get_full, hp, hfind, List.map_map, hcomp]

theorem runFlows_cons (tbl : FlowTable) (p : KeyedFrame) (ps : List KeyedFrame) (now : Nat) :
    runFlows tbl (p :: ps) now =
      runFlows ((g_inet_flow_get_full tbl p.mem p.len 0 0 now).2) ps now := rfl

theorem runFlows_all_miss (ps : List KeyedFrame) (now : Nat) (tbl : FlowTable)
    (hp : ∀ p ∈ ps, flow_parse p.mem p.len 0 = some (G_SOCKET_FAMILY_IPV4, 0, p.tuple))
    (hd : (ps.map KeyedFrame.tuple).Nodup)
    (hfresh : ∀ r ∈ tbl.recs, ∀ p ∈ ps, r.tuple ≠ p.tuple) :
    (runFlows tbl ps now).hits = tbl.hits ∧
    (runFlows tbl ps now).misses = tbl.misses + ps.length ∧
    (runFlows tbl ps now).recs.map recKey =
      (ps.map (fun p => (flow_hash_compute p.tuple, p.tuple))).reverse ++ tbl.recs.map recKey := by
  induction ps generalizing tbl with
  | nil => simp [runFlows]
  | cons p ps ih =>
      have hpp := hp p (by simp)
      obtain ⟨hmiss, _⟩ := get_full_miss tbl p.mem p.len 0 0 now _ 0 p.tuple hpp
        (fun r hr => hfresh r hr p (by simp))
      rw [runFlows_cons, hmiss]
      have hnd : (∀ x ∈ ps, ¬ x.tuple = p.tuple) ∧ (List.map KeyedFrame.tuple ps).Nodup := by
        simpa using hd
      obtain ⟨ih1, ih2, ih3⟩ := ih
        ({ recs := ⟨tbl.nextId, G_SOCKET_FAMILY_IPV4, flow_hash 0 p.tuple, p.tuple,
             if (0 : Nat) = 0 then now else 0⟩ :: tbl.recs,
           list := tbl.nextId :: tbl.list, hits := tbl.hits, misses := tbl.misses + 1,
           nextId := tbl.nextId + 1 })
        (fun q hq => hp q (by simp [hq]))
        hnd.2
        (by
          intro r hr q hq
          simp only [List.mem_cons] at hr
          rcases hr with hr | hr
          · subst hr
            exact fun habs => hnd.1 q hq habs.symm
          · exact hfresh r hr q (by simp [hq]))
      refine ⟨by simpa using ih1, by simp at ih2 ⊢; omega, ?_⟩
      rw [ih3]
      simp [flow_hash_zero, recKey]

theorem runFlows_all_hit (ps : List KeyedFrame) (now : Nat) (tbl : FlowTable)
    (hp : ∀ p ∈ ps, flow_parse p.mem p.len 0 = some (G_SOCKET_FAMILY_IPV4, 0, p.tuple))
    (hin : ∀ p ∈ ps, (flow_hash_compute p.tuple, p.tuple) ∈ tbl.recs.map recKey) :
    (runFlows tbl ps now).hits = tbl.hits + ps.length ∧
    (runFlows tbl ps now).misses = tbl.misses ∧
    (runFlows tbl ps now).recs.map recKey = tbl.recs.map recKey := by
  induction ps generalizing tbl with
  | nil => simp [runFlows]
  | cons p ps ih =>
      have hpp := hp p (by simp)
      have hmem := hin p (by simp)
      obtain ⟨r, hr, hrk⟩ := List.mem_map.mp hmem
      have hfind : ∃ q, tbl.recs.find? (flowMatch (flow_hash 0 p.tuple) p.tuple) = some q := by
        rw [← Option.isSome_iff_exists, List.find?_isSome]
        refine ⟨r, hr, ?_⟩
        rw [flowMatch_iff]
        have h1 : r.hash = flow_hash_compute p.tuple := congrArg Prod.fst hrk
        have h2 : r.tuple = p.tuple := congrArg Prod.snd hrk
        exact ⟨by rw [h1, flow_hash_zero], h2⟩
      obtain ⟨q, hq⟩ := hfind
      obtain ⟨e1, e2, e3, e4, e5, e6⟩ := get_full_hit tbl p.mem p.len 0 0 now _ 0 p.tuple q hpp hq
      rw [runFlows_cons]
      obtain ⟨ih1, ih2, ih3⟩ := ih ((g_inet_flow_get_full tbl p.mem p.len 0 0 now).2)
        (fun x hx => hp x (by simp [hx]))
        (fun x hx => by rw [e4]; exact hin x (by simp [hx]))
      refine ⟨?_, ?_, ?_⟩
      · rw [ih1, e1]; simp; omega
      · rw [ih2, e2]
      · rw [ih3, e4]

theorem get_full_step (tbl : FlowTable) (mem : Nat → Nat) (len hash ts now : Nat) :
    ((g_inet_flow_get_full tbl mem len hash ts now).2.recs.length + tbl.misses =
      tbl.recs.length + (g_inet_flow_get_full tbl mem len hash ts now).2.misses) ∧
    (tbl.recs.length ≤ (g_inet_flow_get_full tbl mem len hash ts now).2.recs.length) ∧
    (∀ r ∈ tbl.recs, ∃ r2 ∈ (g_inet_flow_get_full tbl mem len hash ts now).2.recs,
      r2.id = r.id ∧ r2.tuple = r.tuple ∧ r2.hash = r.hash) := by
  unfold g_inet_flow_get_full
  cases hp : flow_parse mem len hash with
  | none =>
      refine ⟨rfl, Nat.le_refl _, ?_⟩
      intro r hr
      exact ⟨r, hr, rfl, rfl, rfl⟩
  | some v =>
      obtain ⟨fam, h0, t⟩ := v
      cases hfind : tbl.recs.find? (flowMatch (flow_hash h0 t) t) with
      | some r =>
          simp only [hfind]
          refine ⟨by simp, by simp, ?_⟩
          intro x hx
          refine ⟨if x.id = r.id then { x with timestamp := if ts = 0 then now else ts }
            else x, ?_, ?_, ?_, ?_⟩
          · exact List.mem_map_of_mem _ hx
          · split <;> rfl
          · split <;> rfl
          · split <;> rfl
      | none =>
          simp only [hfind]
          refine ⟨by simp; omega, by simp, ?_⟩
          intro x hx
          exact ⟨x, by simp [hx], rfl, rfl, rfl⟩

theorem runCalls_cons (tbl : FlowTable) (c : Call) (cs : List Call) :
    runCalls tbl (c :: cs) =
      runCalls ((g_inet_flow_get_full tbl c.mem c.len c.hash c.timestamp c.now).2) cs := rfl

theorem runCalls_invariant (cs : List Call) (tbl : FlowTable) :
    ((runCalls tbl cs).recs.length + tbl.misses =
      tbl.recs.length + (runCalls tbl cs).misses) ∧
    (tbl.recs.length ≤ (runCalls tbl cs).recs.length) ∧
    (∀ r ∈ tbl.recs, ∃ r2 ∈ (runCalls tbl cs).recs,
      r2.id = r.id ∧ r2.tuple = r.tuple ∧ r2.hash = r.hash) := by
  induction cs generalizing tbl with
  | nil =>
      refine ⟨rfl, Nat.le_refl _, ?_⟩
      intro r hr
      exact ⟨r, hr, rfl, rfl, rfl⟩
  | cons c cs ih =>
      obtain ⟨s1, s2, s3⟩ := get_full_step tbl c.mem c.len c.hash c.timestamp c.now
      obtain ⟨i1, i2, i3⟩ := ih ((g_inet_flow_get_full tbl c.mem c.len c.hash c.timestamp c.now).2)
      rw [runCalls_cons]
      refine ⟨by omega, by omega, ?_⟩
      intro r hr
      obtain ⟨r2, hr2, a1, a2, a3⟩ := s3 r hr
      obtain ⟨r3, hr3, b1, b2, b3⟩ := i3 r2 hr2
      exact ⟨r3, hr3, by rw [b1, a1], by rw [b2, a2], by rw [b3, a3]⟩

theorem and255_eq_mod (x : Nat) : x &&& 255 = x % 256 := by
  have h := Nat.and_pow_two_sub_one_eq_mod x 8
  norm_num at h
  exact h

theorem shiftLeft32_or_eq_add (a b : Nat) (hb : b < 2 ^ 32) :
    (a <<< 32) ||| b = a * 2 ^ 32 + b := by
  apply Nat.eq_of_testBit_eq
  intro i
  rw [Nat.testBit_lor, Nat.testBit_shiftLeft]
  rcases Nat.lt_or_ge i 32 with h | h
  · have hge : ¬ (i ≥ 32) := by omega
    simp only [hge, decide_False, Bool.false_and, Bool.false_or]
    rw [Nat.testBit_to_div_mod, Nat.testBit_to_div_mod]
    congr 1
    have h2 : a * 2 ^ 32 = (a * 2 ^ (31 - i) * 2) * 2 ^ i := by
      rw [Nat.mul_assoc, Nat.mul_assoc, ← Nat.pow_succ']
      congr 2
      rw [← Nat.pow_add]
      congr 1
      omega
    have hpos : 0 < 2 ^ i := Nat.pos_pow_of_pos i (by norm_num)
    rw [h2, Nat.add_comm, Nat.add_mul_div_right _ _ hpos, Nat.add_mul_mod_self_right]
  · have hb2 : b.testBit i = false :=
      Nat.testBit_lt_two_pow (lt_of_lt_of_le hb (Nat.pow_le_pow_right (by norm_num) h))
    simp only [h, decide_True, Bool.true_and, hb2, Bool.or_false]
    rw [Nat.testBit_to_div_mod, Nat.testBit_to_div_mod]
    congr 1
    have h3 : (2 : Nat) ^ i = 2 ^ 32 * 2 ^ (i - 32) := by
      rw [← Nat.pow_add]
      congr 1
      omega
    rw [h3, ← Nat.div_div_eq_div_mul, Nat.mul_comm a, Nat.mul_add_div (by positivity),
      Nat.div_eq_of_lt hb, Nat.add_zero]

theorem wordBytes_or32 (a b : Nat) (hb : b < 2 ^ 32) :
    wordBytes ((a <<< 32) ||| b) = bytes4 a ++ bytes4 b := by
  rw [shiftLeft32_or_eq_add a b hb]
  have hb2 : b < 4294967296 := by norm_num at hb; exact hb
  simp only [wordBytes, bytes4, List.cons_append, List.nil_append, and255_eq_mod,
    Nat.shiftRight_eq_div_pow, List.cons.injEq, and_true]
  norm_num
  omega

theorem wordBytes_shift48 (p : Nat) :
    wordBytes (p <<< 48) = [(p >>> 8) &&& 255, p &&& 255, 0, 0, 0, 0, 0, 0] := by
  simp only [wordBytes, Nat.shiftLeft_eq, Nat.shiftRight_eq_div_pow, and255_eq_mod,
    List.cons.injEq, and_true]
  norm_num
  omega

theorem wordBytes_shift56 (p : Nat) :
    wordBytes (p <<< 56) = [p &&& 255, 0, 0, 0, 0, 0, 0, 0] := by
  simp only [wordBytes, Nat.shiftLeft_eq, Nat.shiftRight_eq_div_pow, and255_eq_mod,
    List.cons.injEq, and_true]
  norm_num
  omega

theorem crc16_eq_stream (iv p : Nat) : crc16 iv p = crc16Stream iv (wordBytes p) := by
  simp [crc16, crc16Words, crc16Stream, wordBytes]

theorem crc16Stream_append (iv : Nat) (xs ys : List Nat) :
    crc16Stream iv (xs ++ ys) = crc16Stream (crc16Stream iv xs) ys := by
  simp [crc16Stream, List.foldl_append]

theorem flow_hash_compute_stream (t : FlowTuple)
    (h1 : t.lower_ip1 < 2 ^ 32) (h3 : t.lower_ip3 < 2 ^ 32)
    (h5 : t.upper_ip1 < 2 ^ 32) (h7 : t.upper_ip3 < 2 ^ 32) :
    flow_hash_compute t =
      crc16Stream 0xffff (lowerStream t) ^^^ crc16Stream 0xffff (upperStream t) ^^^
        crc16Stream 0xffff (protoStream t) := by
  have e1 : lowerStream t = wordBytes ((t.lower_ip0 <<< 32) ||| t.lower_ip1) ++
      (wordBytes ((t.lower_ip2 <<< 32) ||| t.lower_ip3) ++ wordBytes (t.lower_port <<< 48)) := by
    rw [wordBytes_or32 _ _ h1, wordBytes_or32 _ _ h3, wordBytes_shift48]
    simp [lowerStream]
  have e2 : upperStream t = wordBytes ((t.upper_ip0 <<< 32) ||| t.upper_ip1) ++
      (wordBytes ((t.upper_ip2 <<< 32) ||| t.upper_ip3) ++ wordBytes (t.upper_port <<< 48)) := by
    rw [wordBytes_or32 _ _ h5, wordBytes_or32 _ _ h7, wordBytes_shift48]
    simp [upperStream]
  have e3 : protoStream t = wordBytes (t.protocol <<< 56) := by
    rw [wordBytes_shift56]
    simp [protoStream]
  rw [e1, e2, e3, crc16Stream_append, crc16Stream_append, crc16Stream_append,
    crc16Stream_append]
  simp only [← crc16_eq_stream]
  rfl

/-! The verified properties. -/

/-- C1: for every valid TCP/IPv4 frame and its reverse-direction counterpart
(source/destination IP addresses and ports swapped, everything else
identical), parsing yields byte-identical flow tuples, and get-or-create
on the frame and then on its reverse resolve to the same flow record. -/
theorem c1_direction_invariance (mem : Nat → Nat) (len fam h0 : Nat) (t : FlowTuple)
    (hp : flow_parse mem len 0 = some (fam, h0, t))
    (tbl : FlowTable) (now1 now2 : Nat) :
    flow_parse (swapMem mem) len 0 = some (fam, h0, t) ∧
    ((g_inet_flow_get_full tbl mem len 0 0 now1).1).isSome = true ∧
    (g_inet_flow_get_full ((g_inet_flow_get_full tbl mem len 0 0 now1).2)
        (swapMem mem) len 0 0 now2).1 = (g_inet_flow_get_full tbl mem len 0 0 now1).1 := by
  have hswap : flow_parse (swapMem mem) len 0 = some (fam, h0, t) := by
    rw [flow_parse_swap]; exact hp
  obtain ⟨id, r, h1, h2, h3⟩ := get_full_find_self tbl mem len 0 0 now1 fam h0 t hp
  refine ⟨hswap, by rw [h1]; rfl, ?_⟩
  rw [h1]
  set tbl1 := (g_inet_flow_get_full tbl mem len 0 0 now1).2 with htbl1
  simp only [g_inet_flow_get_full, hswap, h2, h3]

set_option maxRecDepth 10000 in
/-- C1 witness: the reverse of the concrete frame 10.0.0.1:443 → 10.0.0.2:51000
parses to the identical tuple and hits the record the original created. -/
theorem c1_witness :
    flow_parse (swapMem frameA) 54 0 = some (G_SOCKET_FAMILY_IPV4, 0, tupleA) ∧
    ((g_inet_flow_get_full emptyTable frameA 54 0 0 7).1).isSome = true ∧
    (g_inet_flow_get_full ((g_inet_flow_get_full emptyTable frameA 54 0 0 7).2)
        (swapMem frameA) 54 0 0 9).1 = (g_inet_flow_get_full emptyTable frameA 54 0 0 7).1 :=
  c1_direction_invariance frameA 54 G_SOCKET_FAMILY_IPV4 0 tupleA (by decide) emptyTable 7 9

set_option maxRecDepth 10000 in
/-- C2 counterexample: the very same frame presented again with a different
non-zero external hash does NOT hit the structurally equal record already in
the table: the stored hash value (10031) differs from the external lookup
hash (12345) — both are unchanged by GHashTable folding of the reserved
values 0 and 1 — so the probe misses and a second record with an equal
tuple is created.  This refutes the claim that a frame whose parsed key
equals an existing record's key always hits that record regardless of hash
values. -/
theorem c2_counterexample :
    tableA.recs.map FlowRec.tuple = [tupleA] ∧
    flow_parse frameA 54 12345 = some (G_SOCKET_FAMILY_IPV4, 12345, tupleA) ∧
    (g_inet_flow_get_full tableA frameA 54 12345 0 8).1 = some 1 ∧
    (g_inet_flow_get_full tableA frameA 54 12345 0 8).2.misses = 2 ∧
    (g_inet_flow_get_full tableA frameA 54 12345 0 8).2.hits = 0 ∧
    tableSize (g_inet_flow_get_full tableA frameA 54 12345 0 8).2 = 2 ∧
    (g_inet_flow_get_full tableA frameA 54 12345 0 8).2.recs.map FlowRec.tuple =
      [tupleA, tupleA] := by
  decide

/-- C2 (amended): a successfully parsed frame hits iff the table holds a
record whose tuple is structurally equal to the parsed tuple AND whose
stored hash equals the effective lookup hash (the external hash when
non-zero, the computed CRC hash otherwise) after GHashTable folding of the
reserved values 0 and 1 to 2; in particular two frames with different
tuples never merge (regardless of colliding external hashes), but an equal
tuple alone does not guarantee a hit: a differing folded hash misses and
creates a duplicate record. -/
theorem c2_amended_hit_requires_hash_match (tbl : FlowTable) (mem : Nat → Nat)
    (len hash ts now fam h0 : Nat) (t : FlowTuple)
    (hp : flow_parse mem len hash = some (fam, h0, t)) :
    ((g_inet_flow_get_full tbl mem len hash ts now).2.hits = tbl.hits + 1 ↔
      ∃ r ∈ tbl.recs, r.tuple = t ∧ ghashFold r.hash = ghashFold (flow_hash h0 t)) ∧
    ((g_inet_flow_get_full tbl mem len hash ts now).2.misses = tbl.misses + 1 ↔
      ¬ ∃ r ∈ tbl.recs, r.tuple = t ∧ ghashFold r.hash = ghashFold (flow_hash h0 t)) := by
  have hex : (tbl.recs.find? (flowMatch (flow_hash h0 t) t)).isSome = true ↔
      ∃ r ∈ tbl.recs, r.tuple = t ∧ ghashFold r.hash = ghashFold (flow_hash h0 t) := by
    rw [List.find?_isSome]
    constructor
    · rintro ⟨x, hx, hm⟩
      obtain ⟨hh, ht⟩ := (flowMatch_iff _ _ _).mp hm
      exact ⟨x, hx, ht, hh⟩
    · rintro ⟨x, hx, ht, hh⟩
      exact ⟨x, hx, (flowMatch_iff _ _ _).mpr ⟨hh, ht⟩⟩
  simp only [g_inet_flow_get_full, hp]
  cases hfind : tbl.recs.find? (flowMatch (flow_hash h0 t) t) with
  | some r =>
      rw [hfind] at hex
      simp only [Option.isSome_some] at hex
      have hx := hex.mp trivial
      constructor
      · simp [hx]
      · simp [hx]
  | none =>
      rw [hfind] at hex
      simp only [Option.isSome_none] at hex
      have hx : ¬ ∃ r ∈ tbl.recs, r.tuple = t ∧
          ghashFold r.hash = ghashFold (flow_hash h0 t) := by
        intro habs
        exact absurd (hex.mpr habs) (by simp)
      constructor
      · simp [hx]
      · simp [hx]

set_option maxRecDepth 10000 in
/-- C2 witness: the concrete frame with external hash 0 hits the record of
`tableA` (equal tuple and matching folded hash are both present). -/
theorem c2_witness :
    ((g_inet_flow_get_full tableA frameA 54 0 0 8).2.hits = tableA.hits + 1 ↔
      ∃ r ∈ tableA.recs, r.tuple = tupleA ∧
        ghashFold r.hash = ghashFold (flow_hash 0 tupleA)) ∧
    ((g_inet_flow_get_full tableA frameA 54 0 0 8).2.misses = tableA.misses + 1 ↔
      ¬ ∃ r ∈ tableA.recs, r.tuple = tupleA ∧
        ghashFold r.hash = ghashFold (flow_hash 0 tupleA)) :=
  c2_amended_hit_requires_hash_match tableA frameA 54 0 0 8 G_SOCKET_FAMILY_IPV4 0 tupleA
    (by decide)

set_option maxRecDepth 10000 in
/-- C3 counterexample: a well-formed 38-byte Ethernet/IPv4/TCP frame (IPv4
ethertype, protocol TCP, exactly the 4 port bytes present after the IPv4
header) fails to parse, and get-or-create creates nothing — refuting the
claim that 4 remaining transport bytes suffice. -/
theorem c3_counterexample :
    be16 frameA 12 = 2048 ∧ byteAt frameA 23 = 6 ∧
    flow_parse frameA 38 0 = none ∧
    g_inet_flow_get_full emptyTable frameA 38 0 0 7 = (none, emptyTable) := by
  decide

/-- C3 (amended): for an IPv4-ethertype frame carrying protocol TCP, parsing
succeeds iff at least 20 bytes — a full `sizeof(tcp_hdr_t)`, not 4 — remain
after the fixed IPv4 header, i.e. iff the total length is at least
14+20+20 = 54 bytes; `flow_parse_tcp` only reads the 4 port bytes but
demands 20. -/
theorem c3_amended_transport_needs_20_bytes (mem : Nat → Nat) (len : Nat)
    (h14 : 14 ≤ len) (hlt : len < 4294967296)
    (heth : be16 mem 12 = 2048) (hproto : byteAt mem 23 = 6) :
    (flow_parse mem len 0).isSome = true ↔ 54 ≤ len := by
  have hsub : sub32 len 14 = len - 14 := by
    unfold sub32 U32
    omega
  have hproto2 : byteAt mem (14 + 9) = 6 := by
    norm_num
    exact hproto
  simp only [flow_parse, hsub, heth]
  rw [if_true]
  by_cases h34 : len - 14 < 20
  · rw [flow_parse_ipv4_none_of_lt mem 14 (len - 14) h34]
    constructor
    · intro h
      exact absurd h Bool.false_ne_true
    · intro hc
      exact absurd hc (by omega)
  · by_cases h54 : len - 14 - 20 < 20
    · have hip : flow_parse_ipv4 mem 14 (len - 14) = none := by
        have hb := flow_parse_ipv4_isSome_tcp mem 14 (len - 14) h34 hproto2
        rw [flow_parse_tcp_none_of_lt mem (14 + 20) (len - 14 - 20) h54] at hb
        cases hx : flow_parse_ipv4 mem 14 (len - 14) with
        | none => rfl
        | some t =>
            rw [hx] at hb
            simp at hb
      rw [hip]
      constructor
      · intro h
        exact absurd h Bool.false_ne_true
      · intro hc
        exact absurd hc (by omega)
    · have hsome := flow_parse_ipv4_isSome_tcp mem 14 (len - 14) h34 hproto2
      rw [flow_parse_tcp_isSome mem (14 + 20) (len - 14 - 20) h54] at hsome
      obtain ⟨t, ht⟩ := Option.isSome_iff_exists.mp hsome
      rw [ht]
      constructor
      · intro _
        omega
      · intro _
        rfl

set_option maxRecDepth 10000 in
/-- C3 witness: the 54-byte frame is exactly at the amended threshold and
parses successfully. -/
theorem c3_witness : (flow_parse frameA 54 0).isSome = true ↔ 54 ≤ 54 :=
  c3_amended_transport_needs_20_bytes frameA 54 (by norm_num) (by norm_num)
    (by decide) (by decide)

set_option maxRecDepth 10000 in
/-- C4 (code bug, evaluated at the failing input): a frame of declared
length 13 is NOT rejected.  `flow_parse` reads the type field at bytes
12-13 — beyond the supplied length, as witnessed by two memories that agree
on every byte below 13 yet parse differently — and hands the IPv4 layer
`13 - 14` computed in guint32 arithmetic, which wraps to 4294967295, so a
13-byte frame whose surrounding memory looks like a valid packet parses
successfully and get-or-create inserts a record. -/
theorem c4_short_frame_not_rejected :
    sub32 13 14 = 4294967295 ∧
    (∀ i, i < 13 → frameShort i = frameA i) ∧
    flow_parse frameShort 13 0 = none ∧
    flow_parse frameA 13 0 = flow_parse frameA 54 0 ∧
    (flow_parse frameA 13 0).isSome = true ∧
    ((g_inet_flow_get_full emptyTable frameA 13 0 0 7).1).isSome = true ∧
    tableSize (g_inet_flow_get_full emptyTable frameA 13 0 0 7).2 = 1 := by
  decide

set_option maxRecDepth 10000 in
/-- C5 (code bug, evaluated at a concrete record): on the record for
10.0.0.1 / 10.0.0.2 the lower-address-string accessor renders the lower
address, but the upper-address-string accessor also renders the LOWER
address (the source passes `flow->tuple.lower_ip` for the "uip" property),
so it differs from the textual form of the record's upper address. -/
theorem c5_uip_returns_lower_address_string :
    (g_inet_flow_get_full emptyTable frameA 54 0 0 7).2.recs = [recA] ∧
    recA.tuple.lower_ip0 = 167772161 ∧ recA.tuple.upper_ip0 = 167772162 ∧
    flow_property_lip recA = "10.0.0.1" ∧
    flow_property_uip recA = "10.0.0.1" ∧
    ipv4Dotted recA.tuple.upper_ip0 = "10.0.0.2" ∧
    flow_property_uip recA ≠ ipv4Dotted recA.tuple.upper_ip0 := by
  decide

/-- C6: when parsing fails, get-or-create returns no record and the table —
its record set with all fields, recency list, hit and miss counters, size
and id allocator — is exactly the one passed in. -/
theorem c6_parse_failure_leaves_table_unchanged (tbl : FlowTable) (mem : Nat → Nat)
    (len hash timestamp now : Nat) (hfail : flow_parse mem len hash = none) :
    g_inet_flow_get_full tbl mem len hash timestamp now = (none, tbl) := by
  simp only [g_inet_flow_get_full, hfail]

set_option maxRecDepth 10000 in
/-- C6 witness: an IPv6-ethertype frame is rejected and leaves a non-empty
table untouched. -/
theorem c6_witness :
    flow_parse frameV6 54 0 = none ∧
    g_inet_flow_get_full tableA frameV6 54 0 0 99 = (none, tableA) :=
  ⟨by decide, c6_parse_failure_leaves_table_unchanged tableA frameV6 54 0 0 99 (by decide)⟩

/-- C7: starting from an empty table, observing frames with pairwise
distinct flow tuples once each yields misses = N and hits = 0; observing
each of them once more yields hits = N while misses stays N. -/
theorem c7_hit_miss_accounting (ps : List KeyedFrame) (now1 now2 : Nat)
    (hp : ∀ p ∈ ps, flow_parse p.mem p.len 0 = some (G_SOCKET_FAMILY_IPV4, 0, p.tuple))
    (hd : (ps.map KeyedFrame.tuple).Nodup) :
    (runFlows emptyTable ps now1).misses = ps.length ∧
    (runFlows emptyTable ps now1).hits = 0 ∧
    (runFlows (runFlows emptyTable ps now1) ps now2).hits = ps.length ∧
    (runFlows (runFlows emptyTable ps now1) ps now2).misses = ps.length := by
  obtain ⟨e1, e2, e3⟩ := runFlows_all_miss ps now1 emptyTable hp hd (by simp [emptyTable])
  have hin : ∀ p ∈ ps, (flow_hash_compute p.tuple, p.tuple) ∈
      (runFlows emptyTable ps now1).recs.map recKey := by
    intro p hps
    rw [e3]
    simp only [emptyTable, List.map_nil, List.append_nil, List.mem_reverse, List.mem_map]
    exact ⟨p, hps, rfl⟩
  obtain ⟨f1, f2, f3⟩ := runFlows_all_hit ps now2 _ hp hin
  have hm : (runFlows emptyTable ps now1).misses = ps.length := by
    rw [e2]
    simp [emptyTable]
  have hh : (runFlows emptyTable ps now1).hits = 0 := by
    rw [e1]
    simp [emptyTable]
  exact ⟨hm, hh, by rw [f1, hh]; omega, by rw [f2, hm]⟩

set_option maxRecDepth 10000 in
/-- C7 witness: two concrete distinct flows observed once each give
misses = 2, hits = 0; observed once more give hits = 2, misses = 2. -/
theorem c7_witness :
    (runFlows emptyTable [⟨frameA, 54, tupleA⟩, ⟨frameB, 54, tupleB⟩] 7).misses = 2 ∧
    (runFlows emptyTable [⟨frameA, 54, tupleA⟩, ⟨frameB, 54, tupleB⟩] 7).hits = 0 ∧
    (runFlows (runFlows emptyTable [⟨frameA, 54, tupleA⟩, ⟨frameB, 54, tupleB⟩] 7)
      [⟨frameA, 54, tupleA⟩, ⟨frameB, 54, tupleB⟩] 9).hits = 2 ∧
    (runFlows (runFlows emptyTable [⟨frameA, 54, tupleA⟩, ⟨frameB, 54, tupleB⟩] 7)
      [⟨frameA, 54, tupleA⟩, ⟨frameB, 54, tupleB⟩] 9).misses = 2 :=
  c7_hit_miss_accounting [⟨frameA, 54, tupleA⟩, ⟨frameB, 54, tupleB⟩] 7 9
    (by decide) (by decide)

/-- C8: the traversal follows the recency list: a hit moves the matched
record to its head, a miss prepends the new record, and after observing
distinct flows A, B, C in that order and re-touching A the traversal visits
the records of A, C, B (creation ids 0, 2, 1) in that order. -/
theorem c8_recency_order (A B C : KeyedFrame) (now : Nat)
    (hpA : flow_parse A.mem A.len 0 = some (G_SOCKET_FAMILY_IPV4, 0, A.tuple))
    (hpB : flow_parse B.mem B.len 0 = some (G_SOCKET_FAMILY_IPV4, 0, B.tuple))
    (hpC : flow_parse C.mem C.len 0 = some (G_SOCKET_FAMILY_IPV4, 0, C.tuple))
    (hAB : A.tuple ≠ B.tuple) (hAC : A.tuple ≠ C.tuple) (hBC : B.tuple ≠ C.tuple) :
    (∀ tbl mem len hash ts now2 fam h0 t r, flow_parse mem len hash = some (fam, h0, t) →
      tbl.recs.find? (flowMatch (flow_hash h0 t) t) = some r →
      (g_inet_flow_get_full tbl mem len hash ts now2).2.list = r.id :: tbl.list.erase r.id) ∧
    (∀ tbl mem len hash ts now2 fam h0 t, flow_parse mem len hash = some (fam, h0, t) →
      (∀ r ∈ tbl.recs, r.tuple ≠ t) →
      (g_inet_flow_get_full tbl mem len hash ts now2).2.list = tbl.nextId :: tbl.list) ∧
    g_inet_flow_foreach (runFlows emptyTable [A, B, C, A] now) = [0, 2, 1] := by
  refine ⟨?_, ?_, ?_⟩
  · intro tbl mem len hash ts now2 fam h0 t r hp hfind
    exact (get_full_hit tbl mem len hash ts now2 fam h0 t r hp hfind).2.2.2.2.1
  · intro tbl mem len hash ts now2 fam h0 t hp habs
    rw [(get_full_miss tbl mem len hash ts now2 fam h0 t hp habs).1]
  · have e1 : (g_inet_flow_get_full emptyTable A.mem A.len 0 0 now).2 =
        ⟨[⟨0, G_SOCKET_FAMILY_IPV4, flow_hash 0 A.tuple, A.tuple, now⟩], [0], 0, 1, 1⟩ := by
      rw [(get_full_miss emptyTable A.mem A.len 0 0 now _ 0 A.tuple hpA
        (by intro r hr; simp [emptyTable] at hr)).1]
      simp [emptyTable]
    have e2 : (g_inet_flow_get_full
        ⟨[⟨0, G_SOCKET_FAMILY_IPV4, flow_hash 0 A.tuple, A.tuple, now⟩], [0], 0, 1, 1⟩
        B.mem B.len 0 0 now).2 =
        ⟨[⟨1, G_SOCKET_FAMILY_IPV4, flow_hash 0 B.tuple, B.tuple, now⟩,
          ⟨0, G_SOCKET_FAMILY_IPV4, flow_hash 0 A.tuple, A.tuple, now⟩], [1, 0], 0, 2, 2⟩ := by
      rw [(get_full_miss _ B.mem B.len 0 0 now _ 0 B.tuple hpB
        (by intro r hr; simp at hr; subst hr; simpa using hAB)).1]
      simp
    have e3 : (g_inet_flow_get_full
        ⟨[⟨1, G_SOCKET_FAMILY_IPV4, flow_hash 0 B.tuple, B.tuple, now⟩,
          ⟨0, G_SOCKET_FAMILY_IPV4, flow_hash 0 A.tuple, A.tuple, now⟩], [1, 0], 0, 2, 2⟩
        C.mem C.len 0 0 now).2 =
        ⟨[⟨2, G_SOCKET_FAMILY_IPV4, flow_hash 0 C.tuple, C.tuple, now⟩,
          ⟨1, G_SOCKET_FAMILY_IPV4, flow_hash 0 B.tuple, B.tuple, now⟩,
          ⟨0, G_SOCKET_FAMILY_IPV4, flow_hash 0 A.tuple, A.tuple, now⟩], [2, 1, 0], 0, 3, 3⟩ := by
      rw [(get_full_miss _ C.mem C.len 0 0 now _ 0 C.tuple hpC
        (by
          intro r hr
          simp at hr
          rcases hr with hr | hr <;> subst hr
          · simpa using hBC
          · simpa using hAC)).1]
      simp
    have hfind4 : ([⟨2, G_SOCKET_FAMILY_IPV4, flow_hash 0 C.tuple, C.tuple, now⟩,
          ⟨1, G_SOCKET_FAMILY_IPV4, flow_hash 0 B.tuple, B.tuple, now⟩,
          ⟨0, G_SOCKET_FAMILY_IPV4, flow_hash 0 A.tuple, A.tuple, now⟩] : List FlowRec).find?
          (flowMatch (flow_hash 0 A.tuple) A.tuple) =
        some ⟨0, G_SOCKET_FAMILY_IPV4, flow_hash 0 A.tuple, A.tuple, now⟩ := by
      have n1 : ¬ (flowMatch (flow_hash 0 A.tuple) A.tuple
          ⟨2, G_SOCKET_FAMILY_IPV4, flow_hash 0 C.tuple, C.tuple, now⟩ = true) := by
        rw [flowMatch_iff]
        rintro ⟨-, h⟩
        exact hAC h.symm
      have n2 : ¬ (flowMatch (flow_hash 0 A.tuple) A.tuple
          ⟨1, G_SOCKET_FAMILY_IPV4, flow_hash 0 B.tuple, B.tuple, now⟩ = true) := by
        rw [flowMatch_iff]
        rintro ⟨-, h⟩
        exact hAB h.symm
      rw [List.find?_cons_of_neg _ n1, List.find?_cons_of_neg _ n2, List.find?_cons_of_pos]
      rw [flowMatch_iff]
      exact ⟨rfl, rfl⟩
    have e4 : (g_inet_flow_get_full
        ⟨[⟨2, G_SOCKET_FAMILY_IPV4, flow_hash 0 C.tuple, C.tuple, now⟩,
          ⟨1, G_SOCKET_FAMILY_IPV4, flow_hash 0 B.tuple, B.tuple, now⟩,
          ⟨0, G_SOCKET_FAMILY_IPV4, flow_hash 0 A.tuple, A.tuple, now⟩], [2, 1, 0], 0, 3, 3⟩
        A.mem A.len 0 0 now).2.list = [0, 2, 1] := by
      rw [(get_full_hit _ A.mem A.len 0 0 now _ 0 A.tuple _ hpA hfind4).2.2.2.2.1]
      rfl
    show (g_inet_flow_get_full (g_inet_flow_get_full (g_inet_flow_get_full
        (g_inet_flow_get_full emptyTable A.mem A.len 0 0 now).2
        B.mem B.len 0 0 now).2 C.mem C.len 0 0 now).2 A.mem A.len 0 0 now).2.list = [0, 2, 1]
    rw [e1, e2, e3, e4]

set_option maxRecDepth 10000 in
/-- C8 witness: the concrete scenario frameA, frameB, frameC, frameA gives
traversal order [0, 2, 1], the records of A, C, B. -/
theorem c8_witness :
    g_inet_flow_foreach (runFlows emptyTable
      [⟨frameA, 54, tupleA⟩, ⟨frameB, 54, tupleB⟩, ⟨frameC, 54, tupleC⟩, ⟨frameA, 54, tupleA⟩]
      7) = [0, 2, 1] :=
  (c8_recency_order ⟨frameA, 54, tupleA⟩ ⟨frameB, 54, tupleB⟩ ⟨frameC, 54, tupleC⟩ 7
    (by decide) (by decide) (by decide) (by decide) (by decide) (by decide)).2.2

/-- C9: the computed flow hash is a pure function of the tuple equal to the
XOR of three CRC-16 computations (polynomial 0x1021, register starting at
0xFFFF for each) over the lower-address-plus-lower-port byte stream, the
upper-address-plus-upper-port byte stream, and the protocol byte stream;
a non-zero cached hash is returned as-is (never recomputed), a zero cached
hash means the CRC combination is computed, and no get-or-create call ever
changes the hash field of a stored record. -/
theorem c9_flow_hash_crc_and_cache (t : FlowTuple)
    (h1 : t.lower_ip1 < 2 ^ 32) (h3 : t.lower_ip3 < 2 ^ 32)
    (h5 : t.upper_ip1 < 2 ^ 32) (h7 : t.upper_ip3 < 2 ^ 32) :
    flow_hash_compute t =
      crc16Stream 0xffff (lowerStream t) ^^^ crc16Stream 0xffff (upperStream t) ^^^
        crc16Stream 0xffff (protoStream t) ∧
    (∀ cached : Nat, cached ≠ 0 → flow_hash cached t = cached) ∧
    flow_hash 0 t = flow_hash_compute t ∧
    (∀ tbl : FlowTable, ∀ mem : Nat → Nat, ∀ len hash ts now : Nat, ∀ r ∈ tbl.recs,
      ∃ r2 ∈ (g_inet_flow_get_full tbl mem len hash ts now).2.recs,
        r2.id = r.id ∧ r2.hash = r.hash) := by
  refine ⟨flow_hash_compute_stream t h1 h3 h5 h7, ?_, flow_hash_zero t, ?_⟩
  · intro cached hc
    simp [flow_hash, hc]
  · intro tbl mem len hash ts now r hr
    obtain ⟨r2, hr2, e1, _, e3⟩ := (get_full_step tbl mem len hash ts now).2.2 r hr
    exact ⟨r2, hr2, e1, e3⟩

set_option maxRecDepth 10000 in
/-- C9 witness: the stream form of the hash evaluated at the concrete tuple
of frameA (whose computed hash is 10031). -/
theorem c9_witness :
    flow_hash_compute tupleA =
      crc16Stream 0xffff (lowerStream tupleA) ^^^ crc16Stream 0xffff (upperStream tupleA) ^^^
        crc16Stream 0xffff (protoStream tupleA) :=
  (c9_flow_hash_crc_and_cache tupleA (by decide) (by decide) (by decide) (by decide)).1

/-- C10: after any sequence of get-or-create calls on a freshly created
table the number of stored records equals the misses counter, the size
never decreases under further calls, and every stored record persists with
its identity, tuple and hash intact. -/
theorem c10_size_equals_misses (cs ds : List Call) :
    tableSize (runCalls emptyTable cs) = (runCalls emptyTable cs).misses ∧
    tableSize (runCalls emptyTable cs) ≤ tableSize (runCalls (runCalls emptyTable cs) ds) ∧
    ∀ r ∈ (runCalls emptyTable cs).recs, ∃ r2 ∈ (runCalls (runCalls emptyTable cs) ds).recs,
      r2.id = r.id ∧ r2.tuple = r.tuple ∧ r2.hash = r.hash := by
  obtain ⟨i1, _, _⟩ := runCalls_invariant cs emptyTable
  obtain ⟨_, j2, j3⟩ := runCalls_invariant ds (runCalls emptyTable cs)
  have h0 : emptyTable.recs.length = 0 := rfl
  have h1 : emptyTable.misses = 0 := rfl
  exact ⟨by unfold tableSize; omega, by unfold tableSize; omega, j3⟩

end GInetFlow
